import Mathlib

/-!
Verification of the droidcam-sentry per-camera recording pipeline.

The definitions below are a shallow embedding of the Go source:
  * `recorder.VideoRecorder` (NewRecorder, AddFrame, StartRecording, OnMotion,
    Update, stopRecording, Stop, Close) from the recorder package, and
  * `surveillance.Manager.StopCamera` / `stopMonitor` from the surveillance
    package.

Modelling decisions:
  * A gocv `Mat` is modelled by `Frame` carrying the only data the recorder
    queries: `Cols()`, `Rows()` and `Empty()`.  `Clone()` is the identity
    because frames have value semantics here.
  * Go's `container/ring.Ring` is a circular doubly linked list; the recorder
    holds a pointer to the current element.  We model a non-nil ring as the
    finite list of slot values read off from the current element following
    `Next()` (the exact order `Do` visits), so `Value` is the list head,
    `r = r.Next()` is a rotation, and `r.Do(f)` traverses the list in order.
    `ring.New(n)` with `n <= 0` returns Go `nil`, modelled as `none` in
    `Option Ring`.  Field access on a nil ring panics; calling `Do` on a nil
    ring is a no-op (the Go method checks its receiver for nil).
  * The `gocv.VideoWriter` is modelled as `Sink`, recording the exact ordered
    sequence of frames passed to `Write`.  `Write` also returns an error flag
    (supplied by the environment); the Go code discards that return value.
  * Panics (nil-pointer dereference) are modelled with `Option`: `addFrame`
    returns `none` exactly when the Go code would dereference a nil ring.
  * Wall-clock time, directory creation and writer opening are supplied by an
    explicit `Env`: `now` feeds the timestamped file name, `mkdirOk`,
    `writerOk`, `writerOpened` are the success of `os.MkdirAll`,
    `gocv.VideoWriterFile` and `writer.IsOpened()`, and `writeOk` the success
    of the individual `Write` calls (whose errors the Go code drops).
  * Go `int` is modelled as `ℤ` and `float64` as `ℚ`; the conversion
    `int(fps)` truncates toward zero (`goInt`).
-/

namespace DroidcamSentry

/-- The data of a `gocv.Mat` that the recorder inspects. -/
structure Frame where
  cols : Nat
  rows : Nat
  isEmpty : Bool
deriving DecidableEq, Repr

/-- A non-nil `container/ring.Ring` of `interface{}` slots holding frames,
represented as the list of slot values starting at the current element in
`Next()` order.  A non-nil ring always has at least one element. -/
structure Ring where
  ringList : List (Option Frame)
  hne : ringList ≠ []

/-- `ring.New(n)`: `n` elements, all `nil`; Go returns `nil` for `n <= 0`. -/
def ringNew (n : ℤ) : Option Ring :=
  if h : 0 < n then
    some ⟨List.replicate n.toNat none, by
      have : n.toNat ≠ 0 := by omega
      simp [List.replicate, *]⟩
  else none

/-- The slot sequence visited by `(*Ring).Do` — a no-op on a nil receiver. -/
def ringDo : Option Ring → List (Option Frame)
  | none => []
  | some r => r.ringList

/-- Store a frame in the current slot and advance the cursor:
`r.preBuffer.Value = frame.Clone(); r.preBuffer = r.preBuffer.Next()`. -/
def Ring.insert (r : Ring) (f : Frame) : Ring where
  ringList := r.ringList.tail ++ [some f]
  hne := by simp

/-- The number of slots of the ring (0 for the nil ring). -/
def ringCapacity : Option Ring → Nat
  | none => 0
  | some r => r.ringList.length

/-- The `gocv.VideoWriter`: we record the ordered frames passed to `Write`. -/
structure Sink where
  written : List Frame
deriving DecidableEq, Repr

/-- `writer.Write(frame)`: the frame is handed to the writer; the returned
error flag reflects whether the underlying write succeeded.  The recorder
discards this flag, exactly as the Go code drops the `error` result. -/
def Sink.write (sk : Sink) (f : Frame) (ok : Bool) : Sink × Bool :=
  ({ written := sk.written ++ [f] }, !ok)

/-- Outcomes of the fallible external calls made by `StartRecording`,
plus the wall clock used for the timestamped file name. -/
structure Env where
  now : Nat
  mkdirOk : Bool
  writerOk : Bool
  writerOpened : Bool
  writeOk : Bool
deriving DecidableEq, Repr

/-- Errors returned by `StartRecording` (the Go code uses `fmt.Errorf`). -/
inductive RecErr where
  /-- `failed to create output dir` -/
  | mkdirFailed
  /-- `no valid frames in pre-buffer` -/
  | noPreBufferFrames
  /-- `failed to open video writer` -/
  | sinkOpenFailed
  /-- `video writer not opened` -/
  | sinkNotOpened
deriving DecidableEq, Repr

/-- The `recorder.VideoRecorder` struct.  `recordingStart` is the opaque
start time; the mutex is irrelevant in this sequential model. -/
structure VideoRecorder where
  name : String
  outputPath : String
  fps : ℚ
  preBufferSeconds : ℤ
  postBufferSeconds : ℤ
  writer : Option Sink
  preBuffer : Option Ring
  isRecording : Bool
  recordingStart : Nat
  framesSinceMotion : ℤ
  currentFile : String

/-- Go's `int(x)` conversion from `float64`: truncation toward zero. -/
def goInt (q : ℚ) : ℤ := if 0 ≤ q then ⌊q⌋ else ⌈q⌉

/-- `recorder.NewRecorder(name, outputPath, fps, preBuffer, postBuffer)`. -/
def newRecorder (name outputPath : String) (fps : ℚ)
    (preBuffer postBuffer : ℤ) : VideoRecorder :=
  let bufferSize := goInt fps * preBuffer
  { name := name
    outputPath := outputPath
    fps := fps
    preBufferSeconds := preBuffer
    postBufferSeconds := postBuffer
    writer := none
    preBuffer := ringNew bufferSize
    isRecording := false
    recordingStart := 0
    framesSinceMotion := 0
    currentFile := "" }

/-- `(*VideoRecorder).AddFrame(frame)`.  Returns `none` when the Go code
panics: `r.preBuffer.Value` dereferences a nil ring.  Otherwise the clone of
the frame is stored in the current slot and the cursor advances; while
recording with an open writer and a non-empty frame, the frame is also
written to the sink (the `Write` error is discarded). -/
def VideoRecorder.addFrame (s : VideoRecorder) (f : Frame) (writeOk : Bool) :
    Option VideoRecorder :=
  match s.preBuffer with
  | none => none
  | some r =>
    let s1 := { s with preBuffer := some (r.insert f) }
    if s1.isRecording then
      match s1.writer with
      | some sk =>
        if !f.isEmpty then
          let (sk1, _err) := sk.write f writeOk
          some { s1 with writer := some sk1 }
        else some s1
      | none => some s1
    else some s1

/-- The width/height scan of `StartRecording`: fold over the slots in `Do`
order; the first non-empty frame found while `width == 0` supplies the
dimensions. -/
def scanDims (l : List (Option Frame)) : Nat × Nat :=
  l.foldl
    (fun wh v =>
      match v with
      | some m => if !m.isEmpty && wh.1 == 0 then (m.cols, m.rows) else wh
      | none => wh)
    (0, 0)

/-- The pre-buffered frames `StartRecording` writes: every non-nil slot
holding a non-empty frame, in `Do` order. -/
def drainFrames (l : List (Option Frame)) : List Frame :=
  l.filterMap (fun v =>
    match v with
    | some m => if m.isEmpty then none else some m
    | none => none)

/-- `(*VideoRecorder).StartRecording()`.  Mirrors the Go control flow:
already-recording short-circuit, `MkdirAll`, file-name generation (recorded
in `currentFile` before any further check), dimension scan over the ring,
writer opening, then state update and the pre-buffer drain into the sink. -/
def VideoRecorder.startRecording (env : Env) (s : VideoRecorder) :
    VideoRecorder × Option RecErr :=
  if s.isRecording then (s, none)
  else if !env.mkdirOk then (s, some RecErr.mkdirFailed)
  else
    let filename :=
      s.outputPath ++ "/" ++ s.name ++ "_" ++ toString env.now ++ ".avi"
    let s1 := { s with currentFile := filename }
    let slots := ringDo s1.preBuffer
    let wh := scanDims slots
    if wh.1 == 0 || wh.2 == 0 then (s1, some RecErr.noPreBufferFrames)
    else if !env.writerOk then (s1, some RecErr.sinkOpenFailed)
    else if !env.writerOpened then (s1, some RecErr.sinkNotOpened)
    else
      let sink0 : Sink := { written := [] }
      let sink :=
        (drainFrames slots).foldl (fun sk f => (sk.write f env.writeOk).1) sink0
      ({ s1 with
          writer := some sink
          isRecording := true
          recordingStart := env.now
          framesSinceMotion := 0 }, none)

/-- `(*VideoRecorder).OnMotion()`: reset the frames-since-motion counter. -/
def VideoRecorder.onMotion (s : VideoRecorder) : VideoRecorder :=
  { s with framesSinceMotion := 0 }

/-- The internal `stopRecording` (caller holds the lock): close and drop the
writer, clear the recording flag, and — when `currentFile` is non-empty —
spawn the asynchronous AVI→MP4 conversion for it.  The second component is
the file path handed to that background conversion (`none` if no goroutine
is spawned).  `currentFile` itself is not cleared. -/
def VideoRecorder.stopRecordingFn (s : VideoRecorder) :
    VideoRecorder × Option String :=
  ({ s with writer := none, isRecording := false },
   if s.currentFile = "" then none else some s.currentFile)

/-- `(*VideoRecorder).Update()`: while recording, bump the counter and stop
once it reaches `int(fps) * PostBufferSeconds`.  Returns `true` exactly when
this call stopped the recording. -/
def VideoRecorder.update (s : VideoRecorder) : VideoRecorder × Bool :=
  if !s.isRecording then (s, false)
  else
    let s1 := { s with framesSinceMotion := s.framesSinceMotion + 1 }
    let maxFrames := goInt s1.fps * s1.postBufferSeconds
    if maxFrames ≤ s1.framesSinceMotion then ((s1.stopRecordingFn).1, true)
    else (s1, false)

/-- `(*VideoRecorder).Stop()`: public stop; also reports the file handed to
the background conversion, as `stopRecording` does. -/
def VideoRecorder.stop (s : VideoRecorder) : VideoRecorder × Option String :=
  s.stopRecordingFn

/-- `(*VideoRecorder).Close()`: `Stop` followed by releasing every buffered
`Mat` (releasing does not change any field of the model; `Do` on a nil ring
is a no-op). -/
def VideoRecorder.close (s : VideoRecorder) : VideoRecorder :=
  (s.stop).1

/-- Run `AddFrame` over a whole list of frames (left to right), propagating a
panic (`none`).  The per-call write outcome is irrelevant to the stored
frames, so one flag serves the whole list. -/
def VideoRecorder.addFrames (s : VideoRecorder) (fs : List Frame)
    (writeOk : Bool) : Option VideoRecorder :=
  fs.foldl (fun acc f => acc.bind (fun st => st.addFrame f writeOk)) (some s)

/-- The recorder calls the monitor loop may interleave while a session is
active: `Update` ticks and `OnMotion` resets. -/
inductive Event where
  | update
  | onMotion
deriving DecidableEq, Repr

/-- Execute a sequence of `Update`/`OnMotion` calls. -/
def VideoRecorder.run (s : VideoRecorder) : List Event → VideoRecorder
  | [] => s
  | Event.update :: rest => VideoRecorder.run (s.update).1 rest
  | Event.onMotion :: rest => VideoRecorder.run s.onMotion rest

/-- Iterate `Update` (discarding the stopped flag) `n` times. -/
def VideoRecorder.iterUpdate (s : VideoRecorder) : Nat → VideoRecorder
  | 0 => s
  | n + 1 => VideoRecorder.iterUpdate (s.update).1 n

/-- The lengths of the maximal runs of consecutive `update` events in a
trace, in order, counting the (possibly empty) runs at the trace boundaries
and between adjacent `onMotion` events.  `updateRuns [u, u, m, u] = [2, 1]`,
`updateRuns [m] = [0, 0]`. -/
def updateRuns : List Event → List Nat
  | [] => [0]
  | Event.update :: rest =>
    match updateRuns rest with
    | n :: ns => (n + 1) :: ns
    | [] => [1]
  | Event.onMotion :: rest => 0 :: updateRuns rest

/-!  The fleet manager (`surveillance.Manager`), restricted to what
`StopCamera` touches: the registry of camera monitors keyed by name, each
monitor carrying its `running` flag and its stop channel.  The monitor's
`stream`/`detector`/`recorder` handles and the remaining manager fields play
no role in `StopCamera`'s control flow and are omitted. -/

/-- A `surveillance.CameraMonitor`: `stopSignaled` records that `stopChan`
has been closed (the signal the per-camera loop terminates on). -/
structure Monitor where
  running : Bool
  stopSignaled : Bool
deriving DecidableEq, Repr

/-- The manager's monitor registry (`m.monitors`), as an association list
keyed by camera name (Go map keys are unique; lookup takes the first hit). -/
abbrev Registry := List (String × Monitor)

/-- `m.monitors[cameraName]` lookup. -/
def lookupMonitor (reg : Registry) (name : String) : Option Monitor :=
  match reg.find? (fun p => p.1 = name) with
  | some p => some p.2
  | none => none

/-- `delete(m.monitors, cameraName)`. -/
def removeMonitor (reg : Registry) (name : String) : Registry :=
  List.filter (fun p => ¬(p.1 = name)) reg

/-- `(*Manager).stopMonitor`: no-op if the monitor is not running, otherwise
close `stopChan` and clear `running` (the stream/detector/recorder closes do
not affect the modelled fields). -/
def stopMonitor (mon : Monitor) : Monitor :=
  if !mon.running then mon else { running := false, stopSignaled := true }

/-- Errors returned by `StopCamera` (`fmt.Errorf` in Go). -/
inductive MgrErr where
  /-- `camera %s not found` -/
  | notFound
  /-- `camera %s is not running` -/
  | notRunning
deriving DecidableEq, Repr

/-- `(*Manager).StopCamera(cameraName)`.  Besides the updated registry and
the error, the result carries the post-`stopMonitor` state of the stopped
monitor — in Go the running loop still holds that (mutated, now signalled)
monitor after it is deleted from the map. -/
def stopCamera (reg : Registry) (name : String) :
    Registry × Option Monitor × Option MgrErr :=
  match lookupMonitor reg name with
  | none => (reg, none, some MgrErr.notFound)
  | some mon =>
    if !mon.running then (reg, none, some MgrErr.notRunning)
    else (removeMonitor reg name, some (stopMonitor mon), none)

/-- Fold `Insert` over a list of frames (left to right). -/
def Ring.insertAll (r : Ring) (fs : List Frame) : Ring :=
  fs.foldl Ring.insert r

/-- The number of occupied (non-nil) slots of the ring. -/
def occupiedSlots (o : Option Ring) : Nat :=
  ((ringDo o).filterMap id).length

/-! ### Ring-buffer lemmas -/

theorem Ring.ringList_insert (r : Ring) (f : Frame) :
    (r.insert f).ringList = r.ringList.tail ++ [some f] := rfl

theorem Ring.length_insert (r : Ring) (f : Frame) :
    (r.insert f).ringList.length = r.ringList.length := by
  obtain ⟨a, t, h⟩ := List.exists_cons_of_ne_nil r.hne
  simp [Ring.insert, h]

theorem Ring.insertAll_cons (r : Ring) (f : Frame) (fs : List Frame) :
    r.insertAll (f :: fs) = (r.insert f).insertAll fs := rfl

/-- The master characterisation of repeated insertion: after inserting `fs`,
the slot sequence (in `Do` order) is the old sequence extended by the new
frames, with the first `fs.length` entries dropped. -/
theorem Ring.insertAll_ringList :
    ∀ (fs : List Frame) (r : Ring),
      (r.insertAll fs).ringList = (r.ringList ++ fs.map some).drop fs.length
  | [], r => by simp [Ring.insertAll]
  | f :: rest, r => by
    obtain ⟨a, t, h⟩ := List.exists_cons_of_ne_nil r.hne
    rw [Ring.insertAll_cons, Ring.insertAll_ringList rest (r.insert f),
      Ring.ringList_insert, h]
    simp [List.append_assoc]

theorem Ring.length_insertAll (fs : List Frame) (r : Ring) :
    (r.insertAll fs).ringList.length = r.ringList.length := by
  induction fs generalizing r with
  | nil => rfl
  | cons f rest ih =>
    rw [Ring.insertAll_cons, ih, Ring.length_insert]

/-- Inserting into a full-capacity history: with at least `C` frames
inserted, the buffer holds exactly the last `C` of them, oldest first. -/
theorem Ring.insertAll_ringList_of_le (fs : List Frame) (r : Ring)
    (h : r.ringList.length ≤ fs.length) :
    (r.insertAll fs).ringList =
      (fs.drop (fs.length - r.ringList.length)).map some := by
  rw [Ring.insertAll_ringList]
  have hsplit : fs.length = r.ringList.length +
      (fs.length - r.ringList.length) := by omega
  rw [hsplit, ← List.drop_drop, List.drop_left, List.map_drop]
  congr 1
  omega

/-! ### AddFrame lemmas -/

/-- While idle with a non-nil ring, `AddFrame` only stores the frame. -/
theorem VideoRecorder.addFrame_idle (s : VideoRecorder) (r : Ring) (f : Frame)
    (w : Bool) (hrec : s.isRecording = false) (hbuf : s.preBuffer = some r) :
    s.addFrame f w = some { s with preBuffer := some (r.insert f) } := by
  simp [VideoRecorder.addFrame, hbuf, hrec]

/-- While idle with a non-nil ring, a whole sequence of `AddFrame` calls
succeeds and has no effect beyond inserting every frame into the ring. -/
theorem VideoRecorder.addFrames_idle :
    ∀ (fs : List Frame) (s : VideoRecorder) (r : Ring) (w : Bool),
      s.isRecording = false → s.preBuffer = some r →
      s.addFrames fs w = some { s with preBuffer := some (r.insertAll fs) } := by
  intro fs
  induction fs with
  | nil =>
    intro s r w hrec hbuf
    cases s
    simp_all [VideoRecorder.addFrames, Ring.insertAll]
  | cons f rest ih =>
    intro s r w hrec hbuf
    have h1 := VideoRecorder.addFrame_idle s r f w hrec hbuf
    have h2 := ih { s with preBuffer := some (r.insert f) } (r.insert f) w
      (by simpa using hrec) rfl
    simp only [VideoRecorder.addFrames, List.foldl_cons, Option.bind_some,
      Option.some_bind] at h2 ⊢
    rw [h1]
    simpa [Ring.insertAll_cons] using h2

/-! ### Dimension-scan and drain lemmas -/

theorem scanDims_stable :
    ∀ (l : List (Option Frame)) (wh : Nat × Nat), wh.1 ≠ 0 →
      l.foldl
        (fun wh v =>
          match v with
          | some m => if !m.isEmpty && wh.1 == 0 then (m.cols, m.rows) else wh
          | none => wh)
        wh = wh := by
  intro l
  induction l with
  | nil => intro wh h; rfl
  | cons v rest ih =>
    intro wh h
    have hstep :
        (match v with
          | some m => if !m.isEmpty && wh.1 == 0 then (m.cols, m.rows) else wh
          | none => wh) = wh := by
      cases v with
      | none => rfl
      | some m => simp [h]
    simp only [List.foldl_cons, hstep]
    exact ih wh h

/-- The dimension scan of a slot list that starts with a non-empty frame of
non-zero width reads off that frame's dimensions. -/
theorem scanDims_cons (g : Frame) (rest : List (Option Frame))
    (hg : g.isEmpty = false) (hc : g.cols ≠ 0) :
    scanDims (some g :: rest) = (g.cols, g.rows) := by
  simp only [scanDims, List.foldl_cons, hg]
  rw [show (if !false && (0 : Nat) == 0 then (g.cols, g.rows)
      else ((0 : Nat), (0 : Nat))) = (g.cols, g.rows) by simp]
  exact scanDims_stable rest (g.cols, g.rows) hc

/-- A slot list with no occupied slots yields no dimensions. -/
theorem scanDims_all_none (l : List (Option Frame))
    (h : ∀ v ∈ l, v = none) : scanDims l = (0, 0) := by
  induction l with
  | nil => rfl
  | cons v rest ih =>
    have hv : v = none := h v (by simp)
    subst hv
    simpa [scanDims] using ih (fun v hv => h v (by simp [hv]))

/-- Draining fully-occupied slots of non-empty frames returns the frames. -/
theorem drainFrames_map_some (gs : List Frame)
    (h : ∀ g ∈ gs, g.isEmpty = false) :
    drainFrames (gs.map some) = gs := by
  induction gs with
  | nil => rfl
  | cons g rest ih =>
    have hg : g.isEmpty = false := h g (by simp)
    simpa [drainFrames, hg] using ih (fun g hg => h g (by simp [hg]))

/-- Writing a list of frames to a sink appends them in order (the per-write
error flags do not affect the frame sequence handed to the writer). -/
theorem sink_foldl_write :
    ∀ (gs : List Frame) (w : List Frame) (ok : Bool),
      gs.foldl (fun sk f => (Sink.write sk f ok).1) (Sink.mk w) =
        Sink.mk (w ++ gs) := by
  intro gs
  induction gs with
  | nil => intro w ok; simp
  | cons g rest ih =>
    intro w ok
    simpa [Sink.write] using ih (w ++ [g]) ok

/-! ### StartRecording lemmas -/

/-- Successful `StartRecording`: with the state idle, the drained slots all
occupied by non-empty frames (the first of non-zero dimensions), and the
environment cooperating, the sink opens and receives exactly the buffered
frames in `Do` order, and only `currentFile`, `writer`, `isRecording`,
`recordingStart` and `framesSinceMotion` change. -/
theorem VideoRecorder.startRecording_success (env : Env) (s : VideoRecorder)
    (g : Frame) (gs : List Frame)
    (hrec : s.isRecording = false)
    (hslots : ringDo s.preBuffer = (g :: gs).map some)
    (hge : g.isEmpty = false) (hgc : g.cols ≠ 0) (hgr : g.rows ≠ 0)
    (hall : ∀ x ∈ g :: gs, x.isEmpty = false)
    (hmk : env.mkdirOk = true) (hwo : env.writerOk = true)
    (hwop : env.writerOpened = true) :
    s.startRecording env =
      ({ s with
          currentFile :=
            s.outputPath ++ "/" ++ s.name ++ "_" ++ toString env.now ++ ".avi"
          writer := some (Sink.mk (g :: gs))
          isRecording := true
          recordingStart := env.now
          framesSinceMotion := 0 }, none) := by
  have hdrain : drainFrames (some g :: gs.map some) = g :: gs := by
    simpa using drainFrames_map_some (g :: gs) hall
  have hdims : scanDims (some g :: gs.map some) = (g.cols, g.rows) :=
    scanDims_cons g (gs.map some) hge hgc
  simp only [VideoRecorder.startRecording, hrec, hmk, hwo, hwop, hslots,
    List.map_cons, hdims, hdrain, hgc, hgr, Bool.false_eq_true, if_false,
    Bool.not_true, List.foldl_cons]
  simp [hgc, hgr]
  simpa [Sink.write] using sink_foldl_write gs [g] env.writeOk

/-! ### Update / post-roll lemmas -/

theorem VideoRecorder.update_idle (s : VideoRecorder)
    (h : s.isRecording = false) : s.update = (s, false) := by
  simp [VideoRecorder.update, h]

theorem VideoRecorder.update_step_lt (s : VideoRecorder)
    (hrec : s.isRecording = true)
    (hlt : s.framesSinceMotion + 1 < goInt s.fps * s.postBufferSeconds) :
    s.update = ({ s with framesSinceMotion := s.framesSinceMotion + 1 }, false)
    := by
  simp only [VideoRecorder.update, hrec, Bool.not_true, Bool.false_eq_true,
    if_false]
  rw [if_neg]
  simpa using hlt

theorem VideoRecorder.update_step_ge (s : VideoRecorder)
    (hrec : s.isRecording = true)
    (hge : goInt s.fps * s.postBufferSeconds ≤ s.framesSinceMotion + 1) :
    s.update =
      ((({ s with framesSinceMotion := s.framesSinceMotion + 1 }
          : VideoRecorder).stopRecordingFn).1, true) := by
  simp only [VideoRecorder.update, hrec, Bool.not_true, Bool.false_eq_true,
    if_false]
  rw [if_pos]
  simpa using hge

theorem VideoRecorder.iterUpdate_add (m n : Nat) :
    ∀ s : VideoRecorder, s.iterUpdate (m + n) = (s.iterUpdate m).iterUpdate n
    := by
  induction m with
  | zero => intro s; rw [Nat.zero_add]; rfl
  | succ m ih =>
    intro s
    rw [Nat.succ_add]
    exact ih (s.update).1

theorem VideoRecorder.iterUpdate_succ_right (n : Nat) (s : VideoRecorder) :
    s.iterUpdate (n + 1) = ((s.iterUpdate n).update).1 :=
  VideoRecorder.iterUpdate_add n 1 s

theorem VideoRecorder.iterUpdate_idle (n : Nat) (s : VideoRecorder)
    (h : s.isRecording = false) : s.iterUpdate n = s := by
  induction n with
  | zero => rfl
  | succ n ih =>
    rw [VideoRecorder.iterUpdate_succ_right, ih, s.update_idle h]

theorem goInt_thirty : goInt 30 = 30 := by decide

/-- Updates strictly below the frame budget `B = int(fps) × post` only
advance the counter. -/
theorem VideoRecorder.iterUpdate_count (B : ℤ) :
    ∀ (k : Nat) (s : VideoRecorder) (c : ℤ), s.isRecording = true →
      goInt s.fps * s.postBufferSeconds = B → s.framesSinceMotion = c →
      c + k < B → s.iterUpdate k = { s with framesSinceMotion := c + k } := by
  intro k
  induction k with
  | zero =>
    intro s c hrec hmax hc hlt
    cases s
    simp_all [VideoRecorder.iterUpdate]
  | succ k ih =>
    intro s c hrec hmax hc hlt
    have hstep := s.update_step_lt hrec
      (by rw [hmax, hc]; push_cast at hlt ⊢; omega)
    show ((s.update).1).iterUpdate k = _
    rw [hstep]
    have := ih { s with framesSinceMotion := s.framesSinceMotion + 1 } (c + 1)
      (by simpa using hrec) hmax
      (by simp [hc]) (by push_cast at hlt ⊢; omega)
    rw [this]
    congr 1
    push_cast
    omega

/-- At the `B`-th update the post-roll expires: the sink is closed and the
recorder transitions to Idle. -/
theorem VideoRecorder.iterUpdate_stop_at (B : ℤ) (s : VideoRecorder)
    (hrec : s.isRecording = true)
    (hmax : goInt s.fps * s.postBufferSeconds = B)
    (hc : s.framesSinceMotion = 0) (hB : 0 < B) (k : Nat) (hk : (k : ℤ) = B) :
    (s.iterUpdate k).isRecording = false ∧ (s.iterUpdate k).writer = none
    := by
  obtain ⟨j, rfl⟩ : ∃ j : Nat, k = j + 1 := by
    cases k with
    | zero => omega
    | succ j => exact ⟨j, rfl⟩
  have hcount : s.iterUpdate j = { s with framesSinceMotion := (j : ℤ) } := by
    simpa using VideoRecorder.iterUpdate_count B j s 0 hrec hmax hc
      (by push_cast at hk ⊢; omega)
  rw [VideoRecorder.iterUpdate_succ_right, hcount,
    VideoRecorder.update_step_ge _ (by simpa using hrec)
      (by show goInt s.fps * s.postBufferSeconds ≤ (j : ℤ) + 1
          rw [hmax]
          push_cast at hk
          omega)]
  exact ⟨rfl, rfl⟩

/-! ### Interleaved Update/OnMotion trace lemmas -/

theorem updateRuns_ne_nil : ∀ evs : List Event, updateRuns evs ≠ [] := by
  intro evs
  cases evs with
  | nil => simp [updateRuns]
  | cons e rest =>
    cases e with
    | update =>
      cases h : updateRuns rest <;> simp [updateRuns, h]
    | onMotion => simp [updateRuns]

theorem updateRuns_cons_update (rest : List Event) (m : Nat) (ms : List Nat)
    (h : updateRuns rest = m :: ms) :
    updateRuns (Event.update :: rest) = (m + 1) :: ms := by
  simp [updateRuns, h]

theorem updateRuns_cons_onMotion (rest : List Event) :
    updateRuns (Event.onMotion :: rest) = 0 :: updateRuns rest := rfl

theorem VideoRecorder.run_append (s : VideoRecorder) (l1 l2 : List Event) :
    s.run (l1 ++ l2) = (s.run l1).run l2 := by
  induction l1 generalizing s with
  | nil => rfl
  | cons e rest ih =>
    cases e <;> simp only [List.cons_append, VideoRecorder.run] <;> exact ih _

theorem VideoRecorder.run_replicate_update (k : Nat) :
    ∀ s : VideoRecorder,
      s.run (List.replicate k Event.update) = s.iterUpdate k := by
  induction k with
  | zero => intro s; rfl
  | succ k ih =>
    intro s
    simp only [List.replicate_succ, VideoRecorder.run,
      VideoRecorder.iterUpdate]
    exact ih _

/-- The post-roll invariant: while recording with some counter value, a
trace whose first update-run fits in the remaining frame budget and whose
later runs each fit in the full budget keeps the recorder Recording. -/
theorem run_stays_recording :
    ∀ (evs : List Event) (s : VideoRecorder) (n : Nat) (ns : List Nat),
      s.isRecording = true →
      updateRuns evs = n :: ns →
      s.framesSinceMotion + n < goInt s.fps * s.postBufferSeconds →
      (∀ m ∈ ns, (m : ℤ) < goInt s.fps * s.postBufferSeconds) →
      (s.run evs).isRecording = true := by
  intro evs
  induction evs with
  | nil =>
    intro s n ns hrec _ _ _
    exact hrec
  | cons e rest ih =>
    intro s n ns hrec hruns hhead htail
    cases e with
    | update =>
      obtain ⟨m, ms, hmm⟩ :=
        List.exists_cons_of_ne_nil (updateRuns_ne_nil rest)
      rw [updateRuns_cons_update rest m ms hmm] at hruns
      obtain ⟨hn, hns⟩ := List.cons_eq_cons.mp hruns
      have hlt : s.framesSinceMotion + 1 < goInt s.fps * s.postBufferSeconds
          := by
        subst hn
        push_cast at hhead
        omega
      show (((s.update).1).run rest).isRecording = true
      rw [VideoRecorder.update_step_lt s hrec hlt]
      apply ih _ m ms
      · simpa using hrec
      · exact hmm
      · show s.framesSinceMotion + 1 + (m : ℤ) <
          goInt s.fps * s.postBufferSeconds
        subst hn
        push_cast at hhead
        omega
      · intro x hx
        have := htail x (hns ▸ hx)
        simpa using this
    | onMotion =>
      rw [updateRuns_cons_onMotion] at hruns
      obtain ⟨hn, hns⟩ := List.cons_eq_cons.mp hruns
      obtain ⟨m, ms, hmm⟩ :=
        List.exists_cons_of_ne_nil (updateRuns_ne_nil rest)
      show ((s.onMotion).run rest).isRecording = true
      apply ih _ m ms
      · simpa [VideoRecorder.onMotion] using hrec
      · exact hmm
      · show (0 : ℤ) + (m : ℤ) < goInt s.fps * s.postBufferSeconds
        have hm : (m : ℤ) < goInt s.fps * s.postBufferSeconds := by
          apply htail
          rw [← hns, hmm]
          exact List.mem_cons_self m ms
        omega
      · intro x hx
        apply htail
        rw [← hns, hmm]
        exact List.mem_cons_of_mem m hx

/-- C5 (amended): while Recording, `OnMotion` resets the frames-since-motion
counter to 0, and for every finite interleaving of `Update` and `OnMotion`
calls, starting from a freshly signalled recording (counter 0), in which
every maximal run of consecutive `Update` calls — including the runs at the
trace boundaries — is shorter than the code's frame budget
`int(fps) × postBufferSeconds`, the recorder never transitions to Idle. -/
theorem C5_bounded_runs_never_idle (s : VideoRecorder) (evs : List Event)
    (hrec : s.isRecording = true) (hc : s.framesSinceMotion = 0)
    (hruns : ∀ n ∈ updateRuns evs,
      (n : ℤ) < goInt s.fps * s.postBufferSeconds) :
    (s.onMotion).framesSinceMotion = 0 ∧ (s.run evs).isRecording = true := by
  refine ⟨rfl, ?_⟩
  obtain ⟨n, ns, h⟩ := List.exists_cons_of_ne_nil (updateRuns_ne_nil evs)
  apply run_stays_recording evs s n ns hrec h
  · have := hruns n (by rw [h]; exact List.mem_cons_self n ns)
    rw [hc]
    omega
  · intro m hm
    exact hruns m (by rw [h]; exact List.mem_cons_of_mem n hm)

/-- C5 witness: fps 30, post-buffer 2 s; a trace with update-runs of length
59 < 60 separated by OnMotion calls keeps the recorder Recording. -/
theorem C5_bounded_runs_never_idle_witness :
    let s : VideoRecorder :=
      { name := "cam", outputPath := "out", fps := 30, preBufferSeconds := 1
        postBufferSeconds := 2, writer := some (Sink.mk [])
        preBuffer := some ⟨[some ⟨640, 480, false⟩], by simp⟩
        isRecording := true, recordingStart := 7, framesSinceMotion := 0
        currentFile := "out/cam_7.avi" }
    let evs := Event.onMotion ::
      (List.replicate 59 Event.update ++ [Event.onMotion])
    (∀ n ∈ updateRuns evs, (n : ℤ) < goInt s.fps * s.postBufferSeconds)
    ∧ ((s.onMotion).framesSinceMotion = 0 ∧ (s.run evs).isRecording = true)
    := by
  exact ⟨by decide, C5_bounded_runs_never_idle _ _ rfl rfl (by decide)⟩

/-- C5 counterexample: the claim as stated is false for non-integer fps.
With fps = 21/2 and postBufferSeconds = 2 the code's budget is
`int(fps) × post = 20` frames while `fps × postBufferSeconds = 21`; a trace
whose update-runs between successive `OnMotion` calls all have length
20 < 21 satisfies the claim's hypothesis yet drives the recorder to Idle. -/
theorem C5_counterexample :
    let s : VideoRecorder :=
      { name := "cam", outputPath := "out", fps := 21/2, preBufferSeconds := 1
        postBufferSeconds := 2, writer := some (Sink.mk [])
        preBuffer := some ⟨[some ⟨640, 480, false⟩], by simp⟩
        isRecording := true, recordingStart := 7, framesSinceMotion := 0
        currentFile := "out/cam_7.avi" }
    let evs := Event.onMotion ::
      (List.replicate 20 Event.update ++ [Event.onMotion])
    (∀ n ∈ updateRuns evs, (n : ℚ) < s.fps * (s.postBufferSeconds : ℚ))
    ∧ (s.run evs).isRecording = false := by
  intro s evs
  have hfloor : (⌊(21 / 2 : ℚ)⌋ : ℤ) = 10 := by
    rw [Int.floor_eq_iff]
    norm_num
  have hgi : goInt (21 / 2 : ℚ) = 10 := by
    simp only [goInt]
    rw [if_pos (by norm_num), hfloor]
  constructor
  · have hruns : updateRuns evs = [0, 20, 0] := by decide
    intro n hn
    rw [hruns] at hn
    show (n : ℚ) < (21 / 2 : ℚ) * ((2 : ℤ) : ℚ)
    simp only [List.mem_cons, List.not_mem_nil, or_false] at hn
    rcases hn with rfl | rfl | rfl <;> norm_num
  · show (((s.onMotion).run
        (List.replicate 20 Event.update ++ [Event.onMotion])).isRecording)
      = false
    rw [VideoRecorder.run_append, VideoRecorder.run_replicate_update]
    show (((s.onMotion).iterUpdate 20).onMotion).isRecording = false
    have hstop := VideoRecorder.iterUpdate_stop_at 20 s.onMotion rfl
      (by show goInt (21 / 2 : ℚ) * (2 : ℤ) = 20
          rw [hgi]
          norm_num)
      rfl (by norm_num) 20 (by norm_num)
    simpa [VideoRecorder.onMotion] using hstop.1

/-- C1: for every recorder with ring-buffer capacity `C ≥ 1` (any non-nil
ring has `C ≥ 1`) and every sequence of more than `C` `AddFrame` calls made
while idle, the drain performed by `StartRecording` writes exactly the last
`C` inserted frames to the sink, in original insertion order (oldest first),
and leaves the buffer's contents unmodified (`preBuffer` is unchanged). -/
theorem C1_drain_last_capacity (s : VideoRecorder) (r : Ring)
    (fs : List Frame) (env : Env) (w : Bool)
    (hidle : s.isRecording = false) (hbuf : s.preBuffer = some r)
    (hlen : r.ringList.length < fs.length)
    (hfs : ∀ f ∈ fs, f.isEmpty = false ∧ f.cols ≠ 0 ∧ f.rows ≠ 0)
    (hmk : env.mkdirOk = true) (hwo : env.writerOk = true)
    (hwop : env.writerOpened = true) :
    ∃ s1, s.addFrames fs w = some s1
      ∧ ringDo s1.preBuffer =
          (fs.drop (fs.length - r.ringList.length)).map some
      ∧ (s1.startRecording env).2 = none
      ∧ ((s1.startRecording env).1).writer =
          some (Sink.mk (fs.drop (fs.length - r.ringList.length)))
      ∧ ((s1.startRecording env).1).preBuffer = s1.preBuffer := by
  have hadd := VideoRecorder.addFrames_idle fs s r w hidle hbuf
  have hring : (r.insertAll fs).ringList =
      (fs.drop (fs.length - r.ringList.length)).map some :=
    Ring.insertAll_ringList_of_le fs r (le_of_lt hlen)
  have hCpos : 0 < r.ringList.length := List.length_pos.mpr r.hne
  have hlastlen : (fs.drop (fs.length - r.ringList.length)).length =
      r.ringList.length := by
    rw [List.length_drop]; omega
  have hne : fs.drop (fs.length - r.ringList.length) ≠ [] := by
    intro h
    rw [h] at hlastlen
    simp at hlastlen
    omega
  obtain ⟨g, gs, hgl⟩ := List.exists_cons_of_ne_nil hne
  have hsub : ∀ x ∈ fs.drop (fs.length - r.ringList.length), x ∈ fs :=
    fun x hx => List.mem_of_mem_drop hx
  have hgmem : g ∈ fs := hsub g (by simp [hgl])
  obtain ⟨hge, hgc, hgr⟩ := hfs g hgmem
  have hall : ∀ x ∈ g :: gs, x.isEmpty = false := by
    intro x hx
    exact (hfs x (hsub x (by rw [hgl]; exact hx))).1
  have hslots : ringDo
      ({ s with preBuffer := some (r.insertAll fs) } : VideoRecorder).preBuffer
      = (g :: gs).map some := by
    simp [ringDo, hring, hgl]
  have hrec1 :
      ({ s with preBuffer := some (r.insertAll fs) } : VideoRecorder).isRecording
      = false := by simpa using hidle
  have hstart := VideoRecorder.startRecording_success env
    { s with preBuffer := some (r.insertAll fs) } g gs hrec1 hslots
    hge hgc hgr hall hmk hwo hwop
  refine ⟨{ s with preBuffer := some (r.insertAll fs) }, hadd, ?_, ?_, ?_, ?_⟩
  · simpa [ringDo] using hring
  · rw [hstart]
  · rw [hstart, hgl]
  · rw [hstart]

/-- C2: with fps = 30 and postBufferSeconds = 2, from a freshly started
recording (frames-since-motion counter 0) and without `OnMotion` calls, the
first 59 `Update` calls leave the state Recording; the 60th transitions to
Idle, closing the sink; and an `Update` call reports a stop exactly when it
is the 60th one. -/
theorem C2_postroll_sixty_updates (s : VideoRecorder)
    (hrec : s.isRecording = true) (hc : s.framesSinceMotion = 0)
    (hfps : s.fps = 30) (hpost : s.postBufferSeconds = 2) :
    (∀ k, k ≤ 59 → (s.iterUpdate k).isRecording = true)
    ∧ (s.iterUpdate 60).isRecording = false
    ∧ (s.iterUpdate 60).writer = none
    ∧ (∀ k, ((s.iterUpdate k).update).2 = true ↔ k = 59) := by
  have hmax : goInt s.fps * s.postBufferSeconds = 60 := by
    rw [hfps, hpost, goInt_thirty]
    norm_num
  have hcount : ∀ k : Nat, (k : ℤ) < 60 →
      s.iterUpdate k = { s with framesSinceMotion := (k : ℤ) } := by
    intro k hk
    simpa using VideoRecorder.iterUpdate_count 60 k s 0 hrec hmax hc (by omega)
  have h59 : s.iterUpdate 59 = { s with framesSinceMotion := (59 : ℤ) } :=
    hcount 59 (by norm_num)
  have hstop := VideoRecorder.iterUpdate_stop_at 60 s hrec hmax hc
    (by norm_num) 60 (by norm_num)
  refine ⟨?_, hstop.1, hstop.2, ?_⟩
  · intro k hk
    rw [hcount k (by omega)]
    simpa using hrec
  · intro k
    rcases Nat.lt_trichotomy k 59 with hlt | heq | hgt
    · rw [hcount k (by omega),
        VideoRecorder.update_step_lt _ (by simpa using hrec)
          (by show (k : ℤ) + 1 < goInt s.fps * s.postBufferSeconds
              rw [hmax]
              omega)]
      simp
      omega
    · subst heq
      rw [h59, VideoRecorder.update_step_ge _ (by simpa using hrec)
        (by show goInt s.fps * s.postBufferSeconds ≤ (59 : ℤ) + 1
            rw [hmax]
            norm_num)]
      simp
    · have hdecomp : k = 60 + (k - 60) := by omega
      rw [hdecomp, VideoRecorder.iterUpdate_add,
        VideoRecorder.iterUpdate_idle _ _ hstop.1,
        VideoRecorder.update_idle _ hstop.1]
      simp
      omega

/-- C2 witness: a concrete just-started recording with fps 30 and 2-second
post-buffer goes idle exactly at the 60th update. -/
theorem C2_postroll_sixty_updates_witness :
    let f1 : Frame := ⟨640, 480, false⟩
    let s : VideoRecorder :=
      { name := "cam", outputPath := "out", fps := 30, preBufferSeconds := 1
        postBufferSeconds := 2, writer := some (Sink.mk [f1])
        preBuffer := some ⟨[some f1], by simp⟩, isRecording := true
        recordingStart := 7, framesSinceMotion := 0
        currentFile := "out/cam_7.avi" }
    (∀ k, k ≤ 59 → (s.iterUpdate k).isRecording = true)
    ∧ (s.iterUpdate 60).isRecording = false
    ∧ (s.iterUpdate 60).writer = none
    ∧ (∀ k, ((s.iterUpdate k).update).2 = true ↔ k = 59) := by
  exact C2_postroll_sixty_updates _ rfl rfl rfl rfl

/-- C1 witness: capacity 1, two frames inserted; the started sink holds only
the second frame and the buffer is untouched by the drain. -/
theorem C1_drain_last_capacity_witness :
    let f1 : Frame := ⟨640, 480, false⟩
    let f2 : Frame := ⟨320, 240, false⟩
    let s : VideoRecorder :=
      { name := "cam", outputPath := "out", fps := 30, preBufferSeconds := 1
        postBufferSeconds := 2, writer := none
        preBuffer := some ⟨[none], by simp⟩, isRecording := false
        recordingStart := 0, framesSinceMotion := 0, currentFile := "" }
    let env : Env := ⟨7, true, true, true, true⟩
    ∃ s1, s.addFrames [f1, f2] true = some s1
      ∧ ringDo s1.preBuffer = ([f1, f2].drop 1).map some
      ∧ (s1.startRecording env).2 = none
      ∧ ((s1.startRecording env).1).writer = some (Sink.mk ([f1, f2].drop 1))
      ∧ ((s1.startRecording env).1).preBuffer = s1.preBuffer := by
  exact C1_drain_last_capacity
    { name := "cam", outputPath := "out", fps := 30, preBufferSeconds := 1
      postBufferSeconds := 2, writer := none
      preBuffer := some ⟨[none], by simp⟩, isRecording := false
      recordingStart := 0, framesSinceMotion := 0, currentFile := "" }
    ⟨[none], by simp⟩ [⟨640, 480, false⟩, ⟨320, 240, false⟩]
    ⟨7, true, true, true, true⟩ true rfl rfl (by decide) (by decide)
    rfl rfl rfl

theorem occupiedSlots_eq_zero (o : Option Ring) :
    occupiedSlots o = 0 ↔ ∀ v ∈ ringDo o, v = none := by
  simp [occupiedSlots, List.length_eq_zero, List.filterMap_eq_nil_iff, id]

/-- C3 (amended): `StartRecording` invoked when the ring buffer has zero
occupied slots fails with `NoPreBufferFrames` when the capacity is greater
than 0, and it also fails the same way when the capacity equals 0 (nil
ring): iterating a nil ring is a no-op, so no frame dimensions are found in
either case, and the state machine stays Idle. -/
theorem C3_empty_buffer_start_fails (s : VideoRecorder) (env : Env)
    (hidle : s.isRecording = false) (hmk : env.mkdirOk = true)
    (hocc : occupiedSlots s.preBuffer = 0) :
    (s.startRecording env).2 = some RecErr.noPreBufferFrames
    ∧ (s.startRecording env).1.isRecording = false := by
  have hempty : ∀ v ∈ ringDo s.preBuffer, v = none :=
    (occupiedSlots_eq_zero s.preBuffer).mp hocc
  have hdims : scanDims (ringDo s.preBuffer) = (0, 0) :=
    scanDims_all_none _ hempty
  constructor <;>
    simp [VideoRecorder.startRecording, hidle, hmk, hdims]

/-- C3 witness: both an empty capacity-60 buffer and a capacity-0 (nil)
buffer make `StartRecording` fail with `NoPreBufferFrames`. -/
theorem C3_empty_buffer_start_fails_witness :
    (((newRecorder "cam" "out" 30 2 10).startRecording
        ⟨7, true, true, true, true⟩).2 = some RecErr.noPreBufferFrames
      ∧ ((newRecorder "cam" "out" 30 2 10).startRecording
        ⟨7, true, true, true, true⟩).1.isRecording = false)
    ∧ (((newRecorder "cam" "out" 30 0 10).startRecording
        ⟨7, true, true, true, true⟩).2 = some RecErr.noPreBufferFrames
      ∧ ((newRecorder "cam" "out" 30 0 10).startRecording
        ⟨7, true, true, true, true⟩).1.isRecording = false) :=
  ⟨C3_empty_buffer_start_fails _ _ rfl rfl (by decide),
   C3_empty_buffer_start_fails _ _ rfl rfl (by decide)⟩

/-- C3 counterexample: the claim says `StartRecording` succeeds on an empty
buffer of capacity 0; in the code it fails with `NoPreBufferFrames`
(with fps 30 and preBufferSeconds 0 the ring is nil and `Do` is a no-op, so
no frame dimensions are found). -/
theorem C3_counterexample :
    ((newRecorder "cam" "out" 30 0 10).startRecording
        ⟨7, true, true, true, true⟩).2 = some RecErr.noPreBufferFrames
    ∧ ¬ (((newRecorder "cam" "out" 30 0 10).startRecording
        ⟨7, true, true, true, true⟩).2 = none) := by
  constructor <;> decide

/-- A `StartRecording` call that returns no error leaves the recorder in
the Recording state (either it already was, or it just transitioned). -/
theorem VideoRecorder.startRecording_none_isRecording (s : VideoRecorder)
    (env : Env) (h : (s.startRecording env).2 = none) :
    (s.startRecording env).1.isRecording = true := by
  by_cases hr : s.isRecording
  · simp [VideoRecorder.startRecording, hr]
  · simp only [VideoRecorder.startRecording, hr] at h ⊢
    split_ifs at h ⊢ <;> simp_all

/-- C4: `StartRecording` called a second time without an intervening `Stop`
is idempotent: after a first call that returned success, the second call
returns success and leaves the state — in particular the open sink and its
frames-written list — completely unchanged, opening no second sink. -/
theorem C4_second_start_is_noop (s : VideoRecorder) (env env2 : Env)
    (h : (s.startRecording env).2 = none) :
    ((s.startRecording env).1).startRecording env2
      = ((s.startRecording env).1, none) := by
  have hrec := s.startRecording_none_isRecording env h
  generalize (s.startRecording env).1 = t at hrec ⊢
  simp [VideoRecorder.startRecording, hrec]

/-- C4 witness: a concrete first `StartRecording` succeeds; the second call
is a no-op returning success. -/
theorem C4_second_start_is_noop_witness :
    let s : VideoRecorder :=
      { name := "cam", outputPath := "out", fps := 30, preBufferSeconds := 1
        postBufferSeconds := 2, writer := none
        preBuffer := some ⟨[some ⟨640, 480, false⟩], by simp⟩
        isRecording := false, recordingStart := 0, framesSinceMotion := 0
        currentFile := "" }
    let env : Env := ⟨7, true, true, true, true⟩
    (s.startRecording env).2 = none
    ∧ ((s.startRecording env).1).startRecording env
        = ((s.startRecording env).1, none) := by
  intro s env
  have h : (s.startRecording env).2 = none := by decide
  exact ⟨h, C4_second_start_is_noop s env env h⟩

/-- C6 (amended): a sink `Write` failure while Recording is silently
ignored — the Go code discards the error result of `Write`, so the recorder
stays Recording with its sink open — while a sink `Open` failure during
`StartRecording` is surfaced as an error and leaves the state machine
Idle. -/
theorem C6_sink_failures :
    (∀ (s : VideoRecorder) (f : Frame) (s1 : VideoRecorder),
      s.isRecording = true → s.addFrame f false = some s1 →
      s1.isRecording = true ∧ s1.writer.isSome = s.writer.isSome)
    ∧ (∀ (env : Env) (s : VideoRecorder), s.isRecording = false →
      env.mkdirOk = true → env.writerOk = false →
      (scanDims (ringDo s.preBuffer)).1 ≠ 0 →
      (scanDims (ringDo s.preBuffer)).2 ≠ 0 →
      (s.startRecording env).2 = some RecErr.sinkOpenFailed
      ∧ (s.startRecording env).1.isRecording = false) := by
  constructor
  · intro s f s1 hrec hadd
    cases hpb : s.preBuffer with
    | none => simp [VideoRecorder.addFrame, hpb] at hadd
    | some r =>
      simp only [VideoRecorder.addFrame, hpb, hrec] at hadd
      cases hw : s.writer with
      | none =>
        simp only [hw, if_true] at hadd
        cases hadd
        simp [hrec, hw]
      | some sk =>
        simp only [hw] at hadd
        by_cases hemp : f.isEmpty <;> simp only [hemp] at hadd <;>
          cases hadd <;> simp [hrec, hw]
  · intro env s hidle hmk hwo hd1 hd2
    constructor <;>
      simp [VideoRecorder.startRecording, hidle, hmk, hwo, hd1, hd2]

/-- C6 witness: write failure on a concrete recording state is ignored, and
a concrete open failure aborts `StartRecording` leaving the machine Idle. -/
theorem C6_sink_failures_witness :
    let f1 : Frame := ⟨640, 480, false⟩
    let sRec : VideoRecorder :=
      { name := "cam", outputPath := "out", fps := 30, preBufferSeconds := 1
        postBufferSeconds := 2, writer := some (Sink.mk [])
        preBuffer := some ⟨[some f1], by simp⟩, isRecording := true
        recordingStart := 7, framesSinceMotion := 0
        currentFile := "out/cam_7.avi" }
    let sIdle : VideoRecorder :=
      { name := "cam", outputPath := "out", fps := 30, preBufferSeconds := 1
        postBufferSeconds := 2, writer := none
        preBuffer := some ⟨[some f1], by simp⟩, isRecording := false
        recordingStart := 0, framesSinceMotion := 0, currentFile := "" }
    let envBad : Env := ⟨7, true, false, true, true⟩
    (∃ s1, sRec.addFrame f1 false = some s1
      ∧ (s1.isRecording = true ∧ s1.writer.isSome = sRec.writer.isSome))
    ∧ ((sIdle.startRecording envBad).2 = some RecErr.sinkOpenFailed
       ∧ (sIdle.startRecording envBad).1.isRecording = false) := by
  intro f1 sRec sIdle envBad
  refine ⟨⟨_, rfl, C6_sink_failures.1 sRec f1 _ rfl rfl⟩, ?_⟩
  exact C6_sink_failures.2 envBad sIdle rfl rfl rfl (by decide) (by decide)

/-- C6 counterexample: the claim says a sink `Write` failure while
Recording aborts the recording and falls back to Idle; in the code the
`Write` error is discarded — after a failed write the recorder is still
Recording with its sink open. -/
theorem C6_counterexample :
    let f1 : Frame := ⟨640, 480, false⟩
    let s : VideoRecorder :=
      { name := "cam", outputPath := "out", fps := 30, preBufferSeconds := 1
        postBufferSeconds := 2, writer := some (Sink.mk [])
        preBuffer := some ⟨[some f1], by simp⟩, isRecording := true
        recordingStart := 7, framesSinceMotion := 0
        currentFile := "out/cam_7.avi" }
    ((s.addFrame f1 false).map (fun t => t.isRecording)) = some true
    ∧ ((s.addFrame f1 false).map (fun t => t.writer.isSome)) = some true := by
  exact ⟨by decide, by decide⟩

theorem lookupMonitor_removeMonitor (reg : Registry) (name : String) :
    lookupMonitor (removeMonitor reg name) name = none := by
  induction reg with
  | nil => rfl
  | cons p rest ih =>
    by_cases hp : p.1 = name <;>
      simp_all [lookupMonitor, removeMonitor, List.filter, List.find?]

/-- C7: `StopCamera` returns `NotFound` for a name not in the registry,
`NotRunning` for a known but already-stopped camera, and on success closes
the monitor's stop channel (signalling its loop to terminate) and removes
the monitor from the registry. -/
theorem C7_stopCamera_cases (reg : Registry) (name : String) :
    (lookupMonitor reg name = none →
      stopCamera reg name = (reg, none, some MgrErr.notFound))
    ∧ (∀ mon, lookupMonitor reg name = some mon → mon.running = false →
      stopCamera reg name = (reg, none, some MgrErr.notRunning))
    ∧ (∀ mon, lookupMonitor reg name = some mon → mon.running = true →
      stopCamera reg name =
        (removeMonitor reg name,
          some { running := false, stopSignaled := true }, none)
      ∧ lookupMonitor (removeMonitor reg name) name = none) := by
  refine ⟨?_, ?_, ?_⟩
  · intro h
    simp [stopCamera, h]
  · intro mon h hrun
    simp [stopCamera, h, hrun]
  · intro mon h hrun
    exact ⟨by simp [stopCamera, h, hrun, stopMonitor],
      lookupMonitor_removeMonitor reg name⟩

/-- C7 witness: a registry with one running and one stopped camera realises
all three `StopCamera` outcomes. -/
theorem C7_stopCamera_cases_witness :
    let reg : Registry :=
      [("cam1", ⟨true, false⟩), ("cam2", ⟨false, false⟩)]
    stopCamera reg "cam3" = (reg, none, some MgrErr.notFound)
    ∧ stopCamera reg "cam2" = (reg, none, some MgrErr.notRunning)
    ∧ (stopCamera reg "cam1" =
        (removeMonitor reg "cam1",
          some { running := false, stopSignaled := true }, none)
      ∧ lookupMonitor (removeMonitor reg "cam1") "cam1" = none) := by
  intro reg
  refine ⟨(C7_stopCamera_cases reg "cam3").1 (by decide),
    (C7_stopCamera_cases reg "cam2").2.1 ⟨false, false⟩ (by decide) rfl,
    (C7_stopCamera_cases reg "cam1").2.2 ⟨true, false⟩ (by decide) rfl⟩

/-- A successful `AddFrame` always stores the frame in the ring: the new
`preBuffer` is the old one with the frame inserted. -/
theorem VideoRecorder.addFrame_some_preBuffer (s : VideoRecorder) (f : Frame)
    (w : Bool) (s1 : VideoRecorder) (h : s.addFrame f w = some s1) :
    ∃ r, s.preBuffer = some r ∧ s1.preBuffer = some (r.insert f) := by
  cases hpb : s.preBuffer with
  | none => simp [VideoRecorder.addFrame, hpb] at h
  | some r =>
    refine ⟨r, rfl, ?_⟩
    simp only [VideoRecorder.addFrame, hpb, Sink.write] at h
    split at h
    · split at h
      · split at h <;> (cases h; rfl)
      · cases h; rfl
    · cases h; rfl

/-- C8 (amended): the ring buffer built by `NewRecorder` has capacity
`int(fps) × preBufferSeconds` — Go truncation toward zero, a nonpositive
product giving a nil ring of capacity 0 — and no recorder operation changes
the capacity afterwards. -/
theorem C8_capacity_fixed (name out : String) (fps : ℚ) (pre post : ℤ) :
    ringCapacity (newRecorder name out fps pre post).preBuffer
      = (goInt fps * pre).toNat
    ∧ (∀ (s : VideoRecorder) (f : Frame) (w : Bool) (s1 : VideoRecorder),
        s.addFrame f w = some s1 →
        ringCapacity s1.preBuffer = ringCapacity s.preBuffer)
    ∧ (∀ (env : Env) (s : VideoRecorder),
        ringCapacity ((s.startRecording env).1).preBuffer
          = ringCapacity s.preBuffer)
    ∧ (∀ s : VideoRecorder,
        ringCapacity ((s.update).1).preBuffer = ringCapacity s.preBuffer)
    ∧ (∀ s : VideoRecorder,
        ringCapacity (s.onMotion).preBuffer = ringCapacity s.preBuffer)
    ∧ (∀ s : VideoRecorder,
        ringCapacity ((s.stop).1).preBuffer = ringCapacity s.preBuffer)
    ∧ (∀ s : VideoRecorder,
        ringCapacity (s.close).preBuffer = ringCapacity s.preBuffer) := by
  refine ⟨?_, ?_, ?_, ?_, fun s => rfl, fun s => rfl, fun s => rfl⟩
  · show ringCapacity (ringNew (goInt fps * pre)) = (goInt fps * pre).toNat
    unfold ringNew
    by_cases h : 0 < goInt fps * pre
    · rw [dif_pos h]
      simp [ringCapacity]
    · rw [dif_neg h]
      simp only [ringCapacity]
      omega
  · intro s f w s1 hadd
    obtain ⟨r, hpb, hpb1⟩ := s.addFrame_some_preBuffer f w s1 hadd
    rw [hpb, hpb1]
    simpa [ringCapacity] using Ring.length_insert r f
  · intro env s
    simp only [VideoRecorder.startRecording]
    split_ifs <;> rfl
  · intro s
    simp only [VideoRecorder.update]
    split_ifs <;> rfl

/-- C8 witness: a concrete instantiation (fps 30, preBuffer 2 → capacity
60) together with a concrete capacity-preserving `AddFrame` call. -/
theorem C8_capacity_fixed_witness :
    let s : VideoRecorder :=
      { name := "cam", outputPath := "out", fps := 30, preBufferSeconds := 2
        postBufferSeconds := 10, writer := none
        preBuffer := some ⟨[none, none], by simp⟩, isRecording := false
        recordingStart := 0, framesSinceMotion := 0, currentFile := "" }
    ringCapacity (newRecorder "cam" "out" 30 2 10).preBuffer
      = (goInt 30 * 2).toNat
    ∧ ∃ s1, s.addFrame ⟨640, 480, false⟩ true = some s1
      ∧ ringCapacity s1.preBuffer = ringCapacity s.preBuffer := by
  intro s
  refine ⟨(C8_capacity_fixed "cam" "out" 30 2 10).1, ?_⟩
  refine ⟨_, rfl, (C8_capacity_fixed "cam" "out" 30 2 10).2.1 s _ true _ rfl⟩

/-- C8 counterexample: the claim's formula capacity = round(fps ×
preBufferSeconds) fails at fps = 43/4 (= 10.75, exactly representable in a
float64) and preBufferSeconds = 1: the code computes `int(10.75) * 1 = 10`
while round(10.75 × 1) = 11. -/
theorem C8_counterexample :
    ringCapacity (newRecorder "cam" "out" (43 / 4) 1 10).preBuffer = 10
    ∧ round ((43 / 4 : ℚ) * ((1 : ℤ) : ℚ)) = 11
    ∧ ¬ ((ringCapacity (newRecorder "cam" "out" (43 / 4) 1 10).preBuffer : ℤ)
        = round ((43 / 4 : ℚ) * ((1 : ℤ) : ℚ))) := by
  have hfloor : (⌊(43 / 4 : ℚ)⌋ : ℤ) = 10 := by
    rw [Int.floor_eq_iff]
    norm_num
  have hgi : goInt (43 / 4 : ℚ) = 10 := by
    simp only [goInt]
    rw [if_pos (by norm_num), hfloor]
  have hcap : ringCapacity (newRecorder "cam" "out" (43 / 4) 1 10).preBuffer
      = 10 := by
    show ringCapacity (ringNew (goInt (43 / 4) * 1)) = 10
    rw [hgi, show (10 : ℤ) * 1 = 10 by norm_num]
    unfold ringNew
    rw [dif_pos (by norm_num)]
    simp [ringCapacity]
  have hround : round ((43 / 4 : ℚ) * ((1 : ℤ) : ℚ)) = 11 := by
    rw [round_eq]
    norm_num
  refine ⟨hcap, hround, ?_⟩
  rw [hcap, hround]
  norm_num

/-- C9: with `int(fps) × preBufferSeconds ≤ 0` (e.g. preBufferSeconds = 0)
the ring is nil; the first `AddFrame` dereferences it and panics (modelled
as `none`), while `StartRecording`, `Update`, `Stop` and `Close` stay total
because iterating a nil ring is a no-op: `StartRecording` finds no frames
and fails, and the others behave as on any idle recorder. -/
theorem C9_nil_ring_totality (name out : String) (fps : ℚ) (pre post : ℤ)
    (h : goInt fps * pre ≤ 0) :
    (newRecorder name out fps pre post).preBuffer = none
    ∧ (∀ f w, (newRecorder name out fps pre post).addFrame f w = none)
    ∧ ringDo (newRecorder name out fps pre post).preBuffer = []
    ∧ (∀ env, env.mkdirOk = true →
        ((newRecorder name out fps pre post).startRecording env).2
          = some RecErr.noPreBufferFrames
        ∧ ((newRecorder name out fps pre post).startRecording
            env).1.isRecording = false)
    ∧ (newRecorder name out fps pre post).update
        = (newRecorder name out fps pre post, false)
    ∧ (newRecorder name out fps pre post).stop
        = (newRecorder name out fps pre post, none)
    ∧ (newRecorder name out fps pre post).close
        = newRecorder name out fps pre post := by
  have hrn : ringNew (goInt fps * pre) = none := by
    unfold ringNew
    rw [dif_neg]
    omega
  have hpb : (newRecorder name out fps pre post).preBuffer = none := hrn
  refine ⟨hpb, ?_, ?_, ?_, ?_, ?_, ?_⟩
  · intro f w
    simp [VideoRecorder.addFrame, hpb]
  · rw [hpb]
    rfl
  · intro env hmk
    have hdims : scanDims (ringDo
        (newRecorder name out fps pre post).preBuffer) = (0, 0) := by
      rw [hpb]
      rfl
    constructor <;>
      simp [VideoRecorder.startRecording, newRecorder, hmk, hdims,
        scanDims, ringDo, hrn]
  · simp [VideoRecorder.update, newRecorder]
  · simp [VideoRecorder.stop, VideoRecorder.stopRecordingFn, newRecorder]
  · simp [VideoRecorder.close, VideoRecorder.stop,
      VideoRecorder.stopRecordingFn, newRecorder]

/-- C9 witness: fps 30 with preBufferSeconds 0 gives the nil ring;
`AddFrame` returns the panic marker, the other operations stay total. -/
theorem C9_nil_ring_totality_witness :
    goInt 30 * 0 ≤ 0
    ∧ (newRecorder "cam" "out" 30 0 10).preBuffer = none
    ∧ (newRecorder "cam" "out" 30 0 10).addFrame ⟨640, 480, false⟩ true
        = none
    ∧ ((newRecorder "cam" "out" 30 0 10).startRecording
        ⟨7, true, true, true, true⟩).2 = some RecErr.noPreBufferFrames
    ∧ (newRecorder "cam" "out" 30 0 10).update
        = (newRecorder "cam" "out" 30 0 10, false) := by
  have h := C9_nil_ring_totality "cam" "out" 30 0 10 (by decide)
  exact ⟨by decide, h.1, h.2.1 _ _, (h.2.2.2.1 _ rfl).1, h.2.2.2.2.1⟩

/-- C10: `Stop` while already Idle is not a no-op: whenever a previous
session left `currentFile` non-empty, `Stop` hands that already-finalized
file to the asynchronous AVI→MP4 conversion again, while the recorder state
itself (not recording, no open sink) is completely unchanged. -/
theorem C10_stop_idle_respawns_conversion (s : VideoRecorder)
    (hidle : s.isRecording = false) (hw : s.writer = none)
    (hcf : s.currentFile ≠ "") :
    s.stop = (s, some s.currentFile) := by
  obtain ⟨nm, op, fps, pre, post, w, pb, ir, rs, fsm, cf⟩ := s
  simp only [VideoRecorder.stop, VideoRecorder.stopRecordingFn] at *
  subst hidle hw
  simp [hcf]

/-- C10 witness: a concrete idle recorder left over from a finished session
spawns the conversion of its last file again on `Stop`. -/
theorem C10_stop_idle_respawns_conversion_witness :
    let s : VideoRecorder :=
      { name := "cam", outputPath := "out", fps := 30, preBufferSeconds := 1
        postBufferSeconds := 2, writer := none
        preBuffer := some ⟨[some ⟨640, 480, false⟩], by simp⟩
        isRecording := false, recordingStart := 7, framesSinceMotion := 60
        currentFile := "out/cam_7.avi" }
    s.stop = (s, some "out/cam_7.avi") := by
  exact C10_stop_idle_respawns_conversion _ rfl rfl (by simp)

end DroidcamSentry
